import Mathlib

/-!
Verification of the inbound message admission controller
(avalanchego, package network/throttling).

Part 1 models the code of src/network/throttling/inbound_msg_throttler.go
directly: the composite throttler, the order in which it invokes its two
sub-throttlers, and the constructor NewInboundMsgThrottler.

Part 2 models the two gates whose bodies are not part of the source under
inspection (only the composite and the constructor are); those definitions
are modelled from the specification (sections 3 and 4 of spec.md) and are
marked as such in their doc comments.
-/

/-! ## Part 1: definitions taken from inbound_msg_throttler.go -/

/-- Configuration of the byte throttler, from the embedded
MsgByteThrottlerConfig used at lines 49-52 of the source. -/
structure MsgByteThrottlerConfig where
  VdrAllocSize : Nat
  AtLargeAllocSize : Nat
  NodeMaxAtLargeBytes : Nat
deriving DecidableEq

/-- InboundMsgThrottlerConfig from the source: the byte throttler
configuration plus MaxProcessingMsgsPerNode. -/
structure InboundMsgThrottlerConfig extends MsgByteThrottlerConfig where
  MaxProcessingMsgsPerNode : Nat
deriving DecidableEq

/-- Node identifiers (ids.ShortID in the source) are opaque,
equality-comparable values; modelled as Nat. -/
abbrev ShortID := Nat

/-- State of commonMsgThrottler as set up by the constructor
(lines 46-55 of the source).  The per-node maps are association lists;
the constructor creates them empty. -/
structure commonMsgThrottler where
  maxVdrBytes : Nat
  remainingVdrBytes : Nat
  remainingAtLargeBytes : Nat
  nodeMaxAtLargeBytes : Nat
  nodeToVdrBytesUsed : List (ShortID × Nat)
  nodeToAtLargeBytesUsed : List (ShortID × Nat)
deriving DecidableEq

/-- State of inboundMsgByteThrottler as set up by the constructor
(lines 45-58 of the source): the common byte state plus the FIFO wait
structure (linkedhashmap, created empty) and the per-node waiting-message
index (created empty). -/
structure inboundMsgByteThrottler extends commonMsgThrottler where
  waitingToAcquire : List (Nat × (Nat × ShortID))
  nodeToWaitingMsgIDs : List (ShortID × List Nat)
deriving DecidableEq

/-- State of inboundMsgBufferThrottler as set up by the constructor
(lines 59-63 of the source). -/
structure inboundMsgBufferThrottler where
  maxProcessingMsgsPerNode : Nat
  nodeToNumProcessingMsgs : List (ShortID × Nat)
  awaitingAcquire : List (ShortID × List Unit)
deriving DecidableEq

/-- The composite inboundMsgThrottler (lines 78-85 of the source). -/
structure inboundMsgThrottler where
  bufferThrottler : inboundMsgBufferThrottler
  byteThrottler : inboundMsgByteThrottler
deriving DecidableEq

/-- NewInboundMsgThrottler (lines 37-66 of the source).  Metrics
registration is an external collaborator; its outcome is passed in as
metricsErr, standing for the value of
t.byteThrottler.metrics.initialize(namespace, registerer) returned at
line 65.  The function returns the constructed throttler together with
that error, exactly as the source does. -/
def NewInboundMsgThrottler (config : InboundMsgThrottlerConfig)
    (metricsErr : Option String) : inboundMsgThrottler × Option String :=
  let t : inboundMsgThrottler :=
    { byteThrottler :=
        { maxVdrBytes := config.VdrAllocSize
          remainingVdrBytes := config.VdrAllocSize
          remainingAtLargeBytes := config.AtLargeAllocSize
          nodeMaxAtLargeBytes := config.NodeMaxAtLargeBytes
          nodeToVdrBytesUsed := []
          nodeToAtLargeBytesUsed := []
          waitingToAcquire := []
          nodeToWaitingMsgIDs := [] }
      bufferThrottler :=
        { maxProcessingMsgsPerNode := config.MaxProcessingMsgsPerNode
          nodeToNumProcessingMsgs := []
          awaitingAcquire := [] } }
  (t, metricsErr)

/-- One call made by the composite throttler on one of its two
sub-throttlers.  bufferThrottler is the per-peer concurrency gate
(ConcurrencyGate in the spec); byteThrottler is the byte gate
(ByteGate in the spec). -/
inductive ThrottlerCall where
  | bufferThrottlerAcquire (nodeID : ShortID)
  | byteThrottlerAcquire (msgSize : Nat) (nodeID : ShortID)
  | bufferThrottlerRelease (nodeID : ShortID)
  | byteThrottlerRelease (msgSize : Nat) (nodeID : ShortID)
deriving DecidableEq

/-- The sequence of sub-throttler calls made by
inboundMsgThrottler.Acquire (lines 90-95 of the source): first
t.bufferThrottler.Acquire(nodeID), then
t.byteThrottler.Acquire(msgSize, nodeID). -/
def inboundMsgThrottler.AcquireCalls (msgSize : Nat) (nodeID : ShortID) :
    List ThrottlerCall :=
  [ThrottlerCall.bufferThrottlerAcquire nodeID,
   ThrottlerCall.byteThrottlerAcquire msgSize nodeID]

/-- The sequence of sub-throttler calls made by
inboundMsgThrottler.Release (lines 99-104 of the source): first
t.bufferThrottler.Release(nodeID), then
t.byteThrottler.Release(msgSize, nodeID). -/
def inboundMsgThrottler.ReleaseCalls (msgSize : Nat) (nodeID : ShortID) :
    List ThrottlerCall :=
  [ThrottlerCall.bufferThrottlerRelease nodeID,
   ThrottlerCall.byteThrottlerRelease msgSize nodeID]

/-! ## Theorems for claims about Part 1 -/

/-- C2: every call to the composite Acquire(size, peerID) first calls the
concurrency gate (bufferThrottler.Acquire) and only afterwards the byte
gate (byteThrottler.Acquire). -/
theorem acquire_calls_buffer_before_byte (msgSize : Nat) (nodeID : ShortID) :
    inboundMsgThrottler.AcquireCalls msgSize nodeID =
      [ThrottlerCall.bufferThrottlerAcquire nodeID,
       ThrottlerCall.byteThrottlerAcquire msgSize nodeID] := rfl

/-- C1 counterexample: for the concrete call Release(1, 0) the composite
does NOT call the byte gate first: the actual call sequence is
bufferThrottler.Release (the concurrency gate) followed by
byteThrottler.Release (the byte gate), which differs from the order the
claim asserts. -/
theorem release_order_counterexample :
    inboundMsgThrottler.ReleaseCalls 1 0 =
      [ThrottlerCall.bufferThrottlerRelease 0,
       ThrottlerCall.byteThrottlerRelease 1 0] ∧
    inboundMsgThrottler.ReleaseCalls 1 0 ≠
      [ThrottlerCall.byteThrottlerRelease 1 0,
       ThrottlerCall.bufferThrottlerRelease 0] := by
  exact ⟨rfl, by decide⟩

/-- C1 amended: every call to the composite Release(size, peerID) first
calls the concurrency gate (bufferThrottler.Release) and only afterwards
the byte gate (byteThrottler.Release) — the same order as Acquire, not
the reverse. -/
theorem release_calls_buffer_before_byte (msgSize : Nat) (nodeID : ShortID) :
    inboundMsgThrottler.ReleaseCalls msgSize nodeID =
      [ThrottlerCall.bufferThrottlerRelease nodeID,
       ThrottlerCall.byteThrottlerRelease msgSize nodeID] := rfl

/-- C9: NewInboundMsgThrottler returns an error exactly when metrics
registration fails; the returned error is precisely the metrics
registration outcome. -/
theorem newInboundMsgThrottler_error_iff_metrics
    (config : InboundMsgThrottlerConfig) (metricsErr : Option String) :
    (NewInboundMsgThrottler config metricsErr).2 = metricsErr ∧
    ((NewInboundMsgThrottler config metricsErr).2 ≠ none ↔ metricsErr ≠ none) := by
  exact ⟨rfl, Iff.rfl⟩

/-- C10: immediately after NewInboundMsgThrottler returns, both byte pools
are full (remainingVdrBytes = VdrAllocSize, remainingAtLargeBytes =
AtLargeAllocSize) and every per-peer map (vdr bytes used, at-large bytes
used, in-flight message counts, waiter indexes) is empty — for any metrics
outcome, including an error. -/
theorem newInboundMsgThrottler_initial_state
    (config : InboundMsgThrottlerConfig) (metricsErr : Option String) :
    ((NewInboundMsgThrottler config metricsErr).1.byteThrottler.remainingVdrBytes
        = config.VdrAllocSize) ∧
    ((NewInboundMsgThrottler config metricsErr).1.byteThrottler.remainingAtLargeBytes
        = config.AtLargeAllocSize) ∧
    ((NewInboundMsgThrottler config metricsErr).1.byteThrottler.nodeToVdrBytesUsed = []) ∧
    ((NewInboundMsgThrottler config metricsErr).1.byteThrottler.nodeToAtLargeBytesUsed = []) ∧
    ((NewInboundMsgThrottler config metricsErr).1.byteThrottler.waitingToAcquire = []) ∧
    ((NewInboundMsgThrottler config metricsErr).1.byteThrottler.nodeToWaitingMsgIDs = []) ∧
    ((NewInboundMsgThrottler config metricsErr).1.bufferThrottler.nodeToNumProcessingMsgs = []) ∧
    ((NewInboundMsgThrottler config metricsErr).1.bufferThrottler.awaitingAcquire = []) := by
  exact ⟨rfl, rfl, rfl, rfl, rfl, rfl, rfl, rfl⟩

/-! ## Part 2: the two gates, modelled from the specification

The bodies of the byte gate (inboundMsgByteThrottler.Acquire/Release) and
of the concurrency gate (inboundMsgBufferThrottler.Acquire/Release) are
not part of the source under inspection; they are modelled here from
spec.md, sections 3, 4.1, 4.2 and 4.3.  Peer identifiers range over a
finite universe Fin n; per-peer maps are total functions with default 0
(entries are created lazily and zero is a valid steady state). -/

/-- Modelled from the spec: the WeightOracle external collaborator
(spec section 2): reports whether a peer is currently weighted and its
relative weight. -/
structure WeightOracle (n : Nat) where
  isWeighted : Fin n → Bool
  weight : Fin n → Nat

/-- Modelled from the spec: total weight is the sum of weights over all
weighted peers (spec section 3, WeightSnapshot). -/
def WeightOracle.totalWeight {n : Nat} (o : WeightOracle n) : Nat :=
  ∑ p, if o.isWeighted p then o.weight p else 0

/-- Modelled from the spec: ByteAllocator state (spec section 3): two
finite byte pools and per-peer usage counters. -/
structure ByteAllocator (n : Nat) where
  weightedPoolCapacity : Nat
  weightedPoolRemaining : Nat
  atLargePoolCapacity : Nat
  atLargePoolRemaining : Nat
  perPeerAtLargeCap : Nat
  weightedBytesUsed : Fin n → Nat
  atLargeBytesUsed : Fin n → Nat
deriving DecidableEq

/-- Which pool a grant was drawn from (remembered by the caller and passed
back to Release unchanged, spec section 4.1). -/
inductive Pool where
  | weighted
  | atLarge
deriving DecidableEq

/-- Modelled from the spec: a weighted peer's entitled share of the
weighted pool: weightedPoolCapacity × peerWeight / totalWeight, rounded
down (spec section 4.1, step 1). -/
def entitledShare {n : Nat} (o : WeightOracle n) (s : ByteAllocator n)
    (p : Fin n) : Nat :=
  s.weightedPoolCapacity * o.weight p / o.totalWeight

/-- Modelled from the spec: ByteAllocator.TryReserve (spec section 4.1).
Returns the pool granted from (or none on denial) together with the
post-state.  Decision rule, in order:
1. weighted path: peer is weighted, its entitled share minus its current
   weighted usage covers size, and the weighted pool has size remaining;
2. at-large path: the peer's at-large usage plus size stays within
   perPeerAtLargeCap and the at-large pool has size remaining;
3. otherwise deny, mutating nothing. -/
def ByteAllocator.TryReserve {n : Nat} (s : ByteAllocator n)
    (o : WeightOracle n) (size : Nat) (p : Fin n) :
    Option Pool × ByteAllocator n :=
  if o.isWeighted p = true ∧
      s.weightedBytesUsed p + size ≤ entitledShare o s p ∧
      size ≤ s.weightedPoolRemaining then
    (some Pool.weighted,
      { s with
        weightedPoolRemaining := s.weightedPoolRemaining - size
        weightedBytesUsed :=
          Function.update s.weightedBytesUsed p (s.weightedBytesUsed p + size) })
  else if s.atLargeBytesUsed p + size ≤ s.perPeerAtLargeCap ∧
      size ≤ s.atLargePoolRemaining then
    (some Pool.atLarge,
      { s with
        atLargePoolRemaining := s.atLargePoolRemaining - size
        atLargeBytesUsed :=
          Function.update s.atLargeBytesUsed p (s.atLargeBytesUsed p + size) })
  else (none, s)

/-- Modelled from the spec: ByteAllocator.Release (spec section 4.1):
credits back the pool the bytes were drawn from and clears the peer's
usage counter accordingly; releasing more than was reserved for that peer
is a fatal contract violation (never silently clamped), modelled as
returning none. -/
def ByteAllocator.Release {n : Nat} (s : ByteAllocator n) (size : Nat)
    (p : Fin n) : Pool → Option (ByteAllocator n)
  | Pool.weighted =>
    if size ≤ s.weightedBytesUsed p then
      some { s with
        weightedPoolRemaining := s.weightedPoolRemaining + size
        weightedBytesUsed :=
          Function.update s.weightedBytesUsed p (s.weightedBytesUsed p - size) }
    else none
  | Pool.atLarge =>
    if size ≤ s.atLargeBytesUsed p then
      some { s with
        atLargePoolRemaining := s.atLargePoolRemaining + size
        atLargeBytesUsed :=
          Function.update s.atLargeBytesUsed p (s.atLargeBytesUsed p - size) }
    else none

/-- One allocator-level operation: an admission attempt or a release of a
previous grant. -/
inductive AllocOp (n : Nat) where
  | acquire (size : Nat) (p : Fin n)
  | release (size : Nat) (p : Fin n) (pool : Pool)

/-- Modelled from the spec: the effect of one operation on the allocator.
A denied acquire leaves the state unchanged (the request queues in the
gate; the allocator itself mutates nothing).  A release of more than the
peer holds fails (fatal contract violation). -/
def ByteAllocator.step {n : Nat} (s : ByteAllocator n) (o : WeightOracle n) :
    AllocOp n → Option (ByteAllocator n)
  | AllocOp.acquire size p => some (s.TryReserve o size p).2
  | AllocOp.release size p pool => s.Release size p pool

/-- Runs a sequence of allocator operations from a given state. -/
def ByteAllocator.run {n : Nat} (s : ByteAllocator n) (o : WeightOracle n) :
    List (AllocOp n) → Option (ByteAllocator n)
  | [] => some s
  | op :: ops =>
    match s.step o op with
    | some s' => s'.run o ops
    | none => none

/-- The allocator state created at construction: both pools full, all
per-peer usage zero (spec section 3 and NewInboundMsgThrottler lines
49-54 of the source). -/
def initAllocator (n wcap acap ppcap : Nat) : ByteAllocator n :=
  { weightedPoolCapacity := wcap
    weightedPoolRemaining := wcap
    atLargePoolCapacity := acap
    atLargePoolRemaining := acap
    perPeerAtLargeCap := ppcap
    weightedBytesUsed := fun _ => 0
    atLargeBytesUsed := fun _ => 0 }

/-- The allocator bookkeeping invariant (spec section 3): each pool's
remaining bytes plus the total usage drawn from it equals its capacity,
and no peer exceeds the per-peer at-large cap. -/
def ByteAllocator.Inv {n : Nat} (s : ByteAllocator n) : Prop :=
  s.weightedPoolRemaining + ∑ p, s.weightedBytesUsed p = s.weightedPoolCapacity ∧
  s.atLargePoolRemaining + ∑ p, s.atLargeBytesUsed p = s.atLargePoolCapacity ∧
  ∀ p, s.atLargeBytesUsed p ≤ s.perPeerAtLargeCap

/-! ## Helper lemmas about per-peer usage sums -/

/-- Splitting the total usage at one peer. -/
theorem sum_split_at {n : Nat} (f : Fin n → Nat) (a : Fin n) :
    ∑ p, f p = f a + ∑ p ∈ Finset.univ \ {a}, f p := by
  conv_lhs => rw [← Function.update_eq_self a f]
  exact Finset.sum_update_of_mem (Finset.mem_univ a) f (f a)

/-- Debiting one peer by k raises the total usage by k. -/
theorem sum_update_add {n : Nat} (f : Fin n → Nat) (a : Fin n) (k : Nat) :
    ∑ p, Function.update f a (f a + k) p = (∑ p, f p) + k := by
  rw [Finset.sum_update_of_mem (Finset.mem_univ a) f (f a + k), sum_split_at f a]
  omega

/-- Crediting one peer by k lowers the total usage by k. -/
theorem sum_update_sub {n : Nat} (f : Fin n → Nat) (a : Fin n) (k : Nat) :
    ∑ p, Function.update f a (f a - k) p = (∑ p, f p) - (min k (f a)) := by
  rw [Finset.sum_update_of_mem (Finset.mem_univ a) f (f a - k), sum_split_at f a]
  omega

/-- A single peer's usage is at most the total usage. -/
theorem single_le_total {n : Nat} (f : Fin n → Nat) (a : Fin n) :
    f a ≤ ∑ p, f p :=
  Finset.single_le_sum (fun i _ => Nat.zero_le (f i)) (Finset.mem_univ a)

/-! ## Invariant preservation -/

/-- TryReserve preserves the allocator bookkeeping invariant. -/
theorem tryReserve_preserves_inv {n : Nat} (o : WeightOracle n)
    (s : ByteAllocator n) (size : Nat) (p : Fin n) (h : s.Inv) :
    (s.TryReserve o size p).2.Inv := by
  obtain ⟨hw, ha, hc⟩ := h
  unfold ByteAllocator.TryReserve
  split_ifs with h1 h2
  · refine ⟨?_, ha, hc⟩
    simp only [sum_update_add]
    omega
  · refine ⟨hw, ?_, ?_⟩
    · simp only [sum_update_add]
      omega
    · intro q
      simp only [Function.update_apply]
      split_ifs with hq
      · exact h2.1
      · exact hc q
  · exact ⟨hw, ha, hc⟩

/-- Release preserves the allocator bookkeeping invariant. -/
theorem release_preserves_inv {n : Nat} (s s' : ByteAllocator n) (size : Nat)
    (p : Fin n) (pool : Pool) (h : s.Inv) (hr : s.Release size p pool = some s') :
    s'.Inv := by
  obtain ⟨hw, ha, hc⟩ := h
  cases pool with
  | weighted =>
    simp only [ByteAllocator.Release] at hr
    split_ifs at hr with hle
    cases hr
    refine ⟨?_, ha, hc⟩
    have hone := single_le_total s.weightedBytesUsed p
    simp only [sum_update_sub]
    omega
  | atLarge =>
    simp only [ByteAllocator.Release] at hr
    split_ifs at hr with hle
    cases hr
    have hone := single_le_total s.atLargeBytesUsed p
    refine ⟨hw, ?_, ?_⟩
    · simp only [sum_update_sub]
      omega
    · intro q
      simp only [Function.update_apply]
      split_ifs with hq
      · exact le_trans (Nat.sub_le _ _) (hc p)
      · exact hc q

/-- One step preserves the allocator bookkeeping invariant. -/
theorem step_preserves_inv {n : Nat} (o : WeightOracle n)
    (s s' : ByteAllocator n) (op : AllocOp n) (h : s.Inv)
    (hs : s.step o op = some s') : s'.Inv := by
  cases op with
  | acquire size p =>
    cases hs
    exact tryReserve_preserves_inv o s size p h
  | release size p pool =>
    exact release_preserves_inv s s' size p pool h hs

/-- Any successful run preserves the allocator bookkeeping invariant. -/
theorem run_preserves_inv {n : Nat} (o : WeightOracle n)
    (ops : List (AllocOp n)) (s s' : ByteAllocator n) (h : s.Inv)
    (hr : s.run o ops = some s') : s'.Inv := by
  induction ops generalizing s with
  | nil =>
    unfold ByteAllocator.run at hr
    cases hr
    exact h
  | cons op ops ih =>
    unfold ByteAllocator.run at hr
    cases hstep : s.step o op with
    | none => rw [hstep] at hr; cases hr
    | some s1 =>
      rw [hstep] at hr
      exact ih s1 (step_preserves_inv o s s1 op h hstep) hr

/-- The initial allocator satisfies the bookkeeping invariant. -/
theorem initAllocator_inv (n wcap acap ppcap : Nat) :
    (initAllocator n wcap acap ppcap).Inv := by
  refine ⟨?_, ?_, fun p => Nat.zero_le _⟩ <;> simp [initAllocator]

/-! ## Theorems for claims about the ByteAllocator -/

/-- C3: along any sequence of allocator operations run from the initial
state (so in particular after every prefix of any matched Acquire/Release
sequence), both pools satisfy 0 ≤ remaining ≤ capacity, and each pool's
capacity minus its remaining bytes equals the sum of the corresponding
per-peer usage over all peers. -/
theorem allocator_run_invariants {n : Nat} (wcap acap ppcap : Nat)
    (o : WeightOracle n) (ops : List (AllocOp n)) (s' : ByteAllocator n)
    (h : (initAllocator n wcap acap ppcap).run o ops = some s') :
    0 ≤ s'.weightedPoolRemaining ∧
    s'.weightedPoolRemaining ≤ s'.weightedPoolCapacity ∧
    0 ≤ s'.atLargePoolRemaining ∧
    s'.atLargePoolRemaining ≤ s'.atLargePoolCapacity ∧
    s'.weightedPoolCapacity - s'.weightedPoolRemaining = ∑ p, s'.weightedBytesUsed p ∧
    s'.atLargePoolCapacity - s'.atLargePoolRemaining = ∑ p, s'.atLargeBytesUsed p := by
  obtain ⟨hw, ha, _⟩ :=
    run_preserves_inv o ops _ s' (initAllocator_inv n wcap acap ppcap) h
  exact ⟨Nat.zero_le _, by omega, Nat.zero_le _, by omega, by omega, by omega⟩

/-- The allocator state reached by granting 2 at-large bytes to the sole
peer of a 1-peer universe from initAllocator 1 10 5 3; used by the C3
witness. -/
def allocAfterOneGrant : ByteAllocator 1 :=
  { weightedPoolCapacity := 10
    weightedPoolRemaining := 10
    atLargePoolCapacity := 5
    atLargePoolRemaining := 3
    perPeerAtLargeCap := 3
    weightedBytesUsed := fun _ => 0
    atLargeBytesUsed := Function.update (fun _ => 0) 0 2 }

/-- C3 witness: a concrete one-operation run (an at-large grant of 2
bytes) from a concrete initial allocator. -/
theorem allocator_run_invariants_witness :
    ((initAllocator 1 10 5 3).run ⟨fun _ => false, fun _ => 0⟩
        [AllocOp.acquire 2 0] = some allocAfterOneGrant) ∧
    (0 ≤ allocAfterOneGrant.weightedPoolRemaining ∧
     allocAfterOneGrant.weightedPoolRemaining ≤
       allocAfterOneGrant.weightedPoolCapacity ∧
     0 ≤ allocAfterOneGrant.atLargePoolRemaining ∧
     allocAfterOneGrant.atLargePoolRemaining ≤
       allocAfterOneGrant.atLargePoolCapacity ∧
     allocAfterOneGrant.weightedPoolCapacity -
         allocAfterOneGrant.weightedPoolRemaining =
       ∑ p, allocAfterOneGrant.weightedBytesUsed p ∧
     allocAfterOneGrant.atLargePoolCapacity -
         allocAfterOneGrant.atLargePoolRemaining =
       ∑ p, allocAfterOneGrant.atLargeBytesUsed p) :=
  ⟨rfl, allocator_run_invariants 10 5 3 ⟨fun _ => false, fun _ => 0⟩
      [AllocOp.acquire 2 0] allocAfterOneGrant rfl⟩

/-- C4: TryReserve grants from the weighted pool exactly when the peer is
weighted, its entitled share minus its current weighted usage covers the
requested size, and the weighted pool has that much remaining; and in that
case it debits weightedPoolRemaining and the peer's weightedBytesUsed by
size. -/
theorem tryReserve_weighted_grant_iff {n : Nat} (o : WeightOracle n)
    (s : ByteAllocator n) (size : Nat) (p : Fin n) :
    (((s.TryReserve o size p).1 = some Pool.weighted) ↔
      (o.isWeighted p = true ∧
       (size : ℤ) ≤ (entitledShare o s p : ℤ) - (s.weightedBytesUsed p : ℤ) ∧
       size ≤ s.weightedPoolRemaining)) ∧
    ((s.TryReserve o size p =
        (some Pool.weighted,
          { s with
            weightedPoolRemaining := s.weightedPoolRemaining - size
            weightedBytesUsed :=
              Function.update s.weightedBytesUsed p
                (s.weightedBytesUsed p + size) })) ↔
      (o.isWeighted p = true ∧
       (size : ℤ) ≤ (entitledShare o s p : ℤ) - (s.weightedBytesUsed p : ℤ) ∧
       size ≤ s.weightedPoolRemaining)) := by
  have hiff : (o.isWeighted p = true ∧
      (size : ℤ) ≤ (entitledShare o s p : ℤ) - (s.weightedBytesUsed p : ℤ) ∧
      size ≤ s.weightedPoolRemaining) ↔
      (o.isWeighted p = true ∧
       s.weightedBytesUsed p + size ≤ entitledShare o s p ∧
       size ≤ s.weightedPoolRemaining) := by
    constructor
    · rintro ⟨a, b, c⟩; exact ⟨a, by omega, c⟩
    · rintro ⟨a, b, c⟩; exact ⟨a, by omega, c⟩
  unfold ByteAllocator.TryReserve
  split_ifs with h1 h2
  · exact ⟨iff_of_true rfl (hiff.mpr h1), iff_of_true rfl (hiff.mpr h1)⟩
  · refine ⟨iff_of_false (by simp) (fun hc => h1 (hiff.mp hc)),
      iff_of_false (fun he => ?_) (fun hc => h1 (hiff.mp hc))⟩
    have hfst := congrArg Prod.fst he
    simp at hfst
  · refine ⟨iff_of_false (by simp) (fun hc => h1 (hiff.mp hc)),
      iff_of_false (fun he => ?_) (fun hc => h1 (hiff.mp hc))⟩
    have hfst := congrArg Prod.fst he
    simp at hfst

/-- C5: at-large grants happen only under the per-peer cap and pool
conditions, and along any run from the initial state no peer's at-large
usage ever exceeds perPeerAtLargeCap. -/
theorem tryReserve_atLarge_cap {n : Nat} (wcap acap ppcap : Nat)
    (o : WeightOracle n) (ops : List (AllocOp n)) (s' : ByteAllocator n)
    (h : (initAllocator n wcap acap ppcap).run o ops = some s')
    (size : Nat) (p : Fin n) :
    (((s'.TryReserve o size p).1 = some Pool.atLarge) →
      (s'.atLargeBytesUsed p + size ≤ s'.perPeerAtLargeCap ∧
       size ≤ s'.atLargePoolRemaining)) ∧
    s'.atLargeBytesUsed p ≤ s'.perPeerAtLargeCap := by
  obtain ⟨-, -, hc⟩ :=
    run_preserves_inv o ops _ s' (initAllocator_inv n wcap acap ppcap) h
  refine ⟨?_, hc p⟩
  intro hg
  unfold ByteAllocator.TryReserve at hg
  split_ifs at hg with h1 h2
  · simp at hg
  · exact h2

/-- C5 witness: the concrete one-grant run of the C3 witness, checked for
the sole peer with a further request of size 2 (which must be denied the
at-large path only if the conditions fail; here they hold and the usage
bound holds as well). -/
theorem tryReserve_atLarge_cap_witness :
    ((((allocAfterOneGrant).TryReserve ⟨fun _ => false, fun _ => 0⟩ 2 0).1 =
        some Pool.atLarge) →
      (allocAfterOneGrant.atLargeBytesUsed 0 + 2 ≤
         allocAfterOneGrant.perPeerAtLargeCap ∧
       2 ≤ allocAfterOneGrant.atLargePoolRemaining)) ∧
    allocAfterOneGrant.atLargeBytesUsed 0 ≤
      allocAfterOneGrant.perPeerAtLargeCap :=
  tryReserve_atLarge_cap 10 5 3 ⟨fun _ => false, fun _ => 0⟩
    [AllocOp.acquire 2 0] allocAfterOneGrant rfl 2 0

/-- C6: whenever TryReserve denies a request, the allocator state is
returned unchanged: no pool counter and no per-peer usage map is
mutated. -/
theorem tryReserve_deny_no_mutation {n : Nat} (o : WeightOracle n)
    (s : ByteAllocator n) (size : Nat) (p : Fin n)
    (h : (s.TryReserve o size p).1 = none) :
    (s.TryReserve o size p).2 = s := by
  unfold ByteAllocator.TryReserve at h ⊢
  split_ifs at h ⊢
  rfl

/-- C6 witness: a concrete denied request (size 1 against an allocator
with empty pools) leaves the allocator state untouched. -/
theorem tryReserve_deny_no_mutation_witness :
    (((initAllocator 1 0 0 0).TryReserve ⟨fun _ => false, fun _ => 0⟩ 1 0).1
        = none) ∧
    ((initAllocator 1 0 0 0).TryReserve ⟨fun _ => false, fun _ => 0⟩ 1 0).2
        = initAllocator 1 0 0 0 :=
  ⟨rfl, tryReserve_deny_no_mutation ⟨fun _ => false, fun _ => 0⟩
      (initAllocator 1 0 0 0) 1 0 rfl⟩

/-! ## The byte gate and the concurrency gate, modelled from the spec -/

/-- Modelled from the spec: a ByteGate waiter record (spec section 3):
the requested size and the requesting peer.  The synchronization handle
and the diagnostic per-peer index carry no admission-relevant state and
are omitted. -/
structure Waiter (n : Nat) where
  size : Nat
  peer : Fin n
deriving DecidableEq

/-- Modelled from the spec: ByteGate state (spec section 4.2): the byte
allocator plus a FIFO wait queue (head = oldest waiter). -/
structure ByteGate (n : Nat) where
  alloc : ByteAllocator n
  queue : List (Waiter n)
deriving DecidableEq

/-- Modelled from the spec: the wake scan ByteGate.Release performs after
crediting the allocator (spec section 4.2): scan the FIFO queue from the
head, attempt TryReserve for each waiter in order, remove and wake each
success, stop at the first failure.  Returns the allocator after all
grants, the list of woken waiters in wake order, and the remaining
queue. -/
def wakeScan {n : Nat} (o : WeightOracle n) :
    ByteAllocator n → List (Waiter n) →
    ByteAllocator n × List (Waiter n) × List (Waiter n)
  | s, [] => (s, [], [])
  | s, w :: ws =>
    if ((s.TryReserve o w.size w.peer).1).isSome then
      let r := wakeScan o (s.TryReserve o w.size w.peer).2 ws
      (r.1, w :: r.2.1, r.2.2)
    else (s, [], w :: ws)

/-- Modelled from the spec: the immediate (non-blocking) admission attempt
of ByteGate.Acquire (spec section 4.2): try TryReserve at once; on
success return the granted pool, on failure the caller would enqueue and
block (returns none here). -/
def ByteGate.tryAcquire {n : Nat} (o : WeightOracle n) (g : ByteGate n)
    (size : Nat) (p : Fin n) : Option (ByteGate n × Pool) :=
  match (g.alloc.TryReserve o size p).1 with
  | some pool =>
    some ({ alloc := (g.alloc.TryReserve o size p).2, queue := g.queue }, pool)
  | none => none

/-- Modelled from the spec: ByteGate.Release (spec section 4.2): credit
the allocator (failing fatally on over-release), then run the wake scan.
Returns the new gate state and the list of woken waiters. -/
def ByteGate.Release {n : Nat} (o : WeightOracle n) (g : ByteGate n)
    (size : Nat) (p : Fin n) (pool : Pool) :
    Option (ByteGate n × List (Waiter n)) :=
  match g.alloc.Release size p pool with
  | none => none
  | some s1 =>
    let r := wakeScan o s1 g.queue
    some ({ alloc := r.1, queue := r.2.2 }, r.2.1)

/-- The head-to-first-failure structure of the wake scan: the woken
waiters are an initial segment of the queue in order, and if any waiter
remains queued, the new head fails TryReserve against the final allocator
state. -/
theorem wakeScan_spec {n : Nat} (o : WeightOracle n) (q : List (Waiter n)) :
    ∀ s : ByteAllocator n,
      q = (wakeScan o s q).2.1 ++ (wakeScan o s q).2.2 ∧
      ∀ w ws, (wakeScan o s q).2.2 = w :: ws →
        (((wakeScan o s q).1).TryReserve o w.size w.peer).1 = none := by
  induction q with
  | nil =>
    intro s
    refine ⟨rfl, ?_⟩
    intro w ws h
    cases h
  | cons w ws ih =>
    intro s
    unfold wakeScan
    split_ifs with hres
    · obtain ⟨ih1, ih2⟩ := ih (s.TryReserve o w.size w.peer).2
      refine ⟨?_, ?_⟩
      · show w :: ws =
          (w :: (wakeScan o (s.TryReserve o w.size w.peer).2 ws).2.1) ++
            (wakeScan o (s.TryReserve o w.size w.peer).2 ws).2.2
        rw [List.cons_append, ← ih1]
      · exact fun v vs h => ih2 v vs h
    · refine ⟨rfl, ?_⟩
      intro v vs h
      injection h with h1 h2
      subst h1
      exact Option.not_isSome_iff_eq_none.mp hres

/-- C7: whenever ByteGate.Release succeeds, it first credits the
allocator and then performs the head-to-first-failure wake scan on the
credited allocator; the woken waiters form an initial segment of the FIFO
queue in arrival order (so a waiter is woken only if every waiter queued
before it is woken in the same scan, no later), and any surviving head
fails TryReserve against the resulting allocator state. -/
theorem byteGate_release_fifo {n : Nat} (o : WeightOracle n)
    (g : ByteGate n) (size : Nat) (p : Fin n) (pool : Pool)
    (g' : ByteGate n) (woken : List (Waiter n))
    (h : ByteGate.Release o g size p pool = some (g', woken)) :
    (∃ s1, g.alloc.Release size p pool = some s1 ∧
      (g'.alloc, woken, g'.queue) = wakeScan o s1 g.queue) ∧
    g.queue = woken ++ g'.queue ∧
    (∀ w ws, g'.queue = w :: ws →
      ((g'.alloc.TryReserve o w.size w.peer).1 = none)) ∧
    (∀ i : Nat, i < woken.length → g.queue[i]? = woken[i]?) := by
  unfold ByteGate.Release at h
  cases hrel : g.alloc.Release size p pool with
  | none => rw [hrel] at h; cases h
  | some s1 =>
    rw [hrel] at h
    injection h with h1
    injection h1 with h2 h3
    subst h3
    obtain ⟨hsplit, hstop⟩ := wakeScan_spec o g.queue s1
    refine ⟨⟨s1, rfl, ?_⟩, ?_, ?_, ?_⟩
    · rw [← h2]
    · rw [← h2]
      exact hsplit
    · intro w ws hcons
      rw [← h2] at hcons ⊢
      exact hstop w ws hcons
    · intro i hi
      conv_lhs => rw [hsplit]
      exact List.getElem?_append_left hi

/-- Concrete oracle for witnesses: one unweighted peer. -/
def oUnweighted : WeightOracle 1 := ⟨fun _ => false, fun _ => 0⟩

/-- Concrete byte gate for the C7 witness: at-large pool of 10 bytes all
held by the sole peer, two queued waiters of sizes 4 and 20. -/
def gateC7 : ByteGate 1 :=
  ⟨⟨0, 0, 10, 0, 10, fun _ => 0, fun _ => 10⟩, [⟨4, 0⟩, ⟨20, 0⟩]⟩

/-- The gate state after the C7 witness release: the waiter of size 4 was
woken, the waiter of size 20 still queues. -/
def gateC7After : ByteGate 1 :=
  ⟨⟨0, 0, 10, 6, 10, fun _ => 0,
    Function.update (Function.update (fun _ => 10) 0 0) 0 4⟩, [⟨20, 0⟩]⟩

/-- C7 witness: releasing the 10 held bytes wakes exactly the head waiter
(size 4) and stops at the unsatisfiable waiter of size 20. -/
theorem byteGate_release_fifo_witness :
    (∃ s1, gateC7.alloc.Release 10 0 Pool.atLarge = some s1 ∧
      (gateC7After.alloc, [(⟨4, 0⟩ : Waiter 1)], gateC7After.queue) =
        wakeScan oUnweighted s1 gateC7.queue) ∧
    gateC7.queue = [(⟨4, 0⟩ : Waiter 1)] ++ gateC7After.queue ∧
    (∀ w ws, gateC7After.queue = w :: ws →
      ((gateC7After.alloc.TryReserve oUnweighted w.size w.peer).1 = none)) ∧
    (∀ i : Nat, i < [(⟨4, 0⟩ : Waiter 1)].length →
      gateC7.queue[i]? = [(⟨4, 0⟩ : Waiter 1)][i]?) :=
  byteGate_release_fifo oUnweighted gateC7 10 0 Pool.atLarge gateC7After
    [⟨4, 0⟩] rfl

/-- Modelled from the spec: ConcurrencyGate state (spec sections 3 and
4.3): the per-peer cap, the in-flight counters, and the number of queued
waiters per peer (each waiter holds only a wake handle, so a count
suffices). -/
structure ConcurrencyGate (n : Nat) where
  maxConcurrentPerPeer : Nat
  inFlight : Fin n → Nat
  waiters : Fin n → Nat

/-- Modelled from the spec: the immediate (non-blocking) path of
ConcurrencyGate.Acquire (spec section 4.3): if the peer is under its cap,
increment inFlight and return; otherwise the caller would enqueue and
block (returns none here). -/
def ConcurrencyGate.tryAcquire {n : Nat} (c : ConcurrencyGate n)
    (p : Fin n) : Option (ConcurrencyGate n) :=
  if c.inFlight p < c.maxConcurrentPerPeer then
    some { c with inFlight := Function.update c.inFlight p (c.inFlight p + 1) }
  else none

/-- Modelled from the spec: ConcurrencyGate.Release (spec section 4.3):
decrement the peer's inFlight count and, if a waiter for that peer
exists, wake exactly one — the woken caller's Acquire then completes by
incrementing inFlight again, so the two cancel and only the waiter count
drops.  Releasing with no message in flight is a contract violation
(fatal, modelled as none). -/
def ConcurrencyGate.Release {n : Nat} (c : ConcurrencyGate n)
    (p : Fin n) : Option (ConcurrencyGate n) :=
  if c.inFlight p = 0 then none
  else if 0 < c.waiters p then
    some { c with waiters := Function.update c.waiters p (c.waiters p - 1) }
  else
    some { c with inFlight := Function.update c.inFlight p (c.inFlight p - 1) }

/-- Modelled from the spec: the composite admission controller (spec
section 4.4): the concurrency gate and the byte gate.  The call orders
are those of the source composite (lines 90-104): bufferGate first on
both Acquire and Release. -/
structure InboundAdmissionController (n : Nat) where
  bufferGate : ConcurrencyGate n
  byteGate : ByteGate n

/-- Modelled from the spec and the source composite: the path of
Acquire(size, peerID) on which both gates grant immediately (lines 90-95
of the source: bufferThrottler.Acquire then byteThrottler.Acquire).
Returns the new state and the pool the bytes were drawn from, or none if
the call would block. -/
def InboundAdmissionController.tryAcquire {n : Nat} (o : WeightOracle n)
    (t : InboundAdmissionController n) (size : Nat) (p : Fin n) :
    Option (InboundAdmissionController n × Pool) :=
  match t.bufferGate.tryAcquire p with
  | none => none
  | some bg =>
    match t.byteGate.tryAcquire o size p with
    | none => none
    | some (byg, pool) => some ({ bufferGate := bg, byteGate := byg }, pool)

/-- Modelled from the spec and the source composite: Release(size,
peerID) (lines 99-104 of the source: bufferThrottler.Release then
byteThrottler.Release). -/
def InboundAdmissionController.Release {n : Nat} (o : WeightOracle n)
    (t : InboundAdmissionController n) (size : Nat) (p : Fin n)
    (pool : Pool) : Option (InboundAdmissionController n) :=
  match t.bufferGate.Release p with
  | none => none
  | some bg =>
    match ByteGate.Release o t.byteGate size p pool with
    | none => none
    | some (byg, _) => some { bufferGate := bg, byteGate := byg }

/-- Reserving and then releasing the granted pool restores the allocator
exactly. -/
theorem tryReserve_then_release {n : Nat} (o : WeightOracle n)
    (s : ByteAllocator n) (size : Nat) (p : Fin n) (pool : Pool)
    (h : (s.TryReserve o size p).1 = some pool) :
    ((s.TryReserve o size p).2).Release size p pool = some s := by
  unfold ByteAllocator.TryReserve at h
  split_ifs at h with h1 h2
  · injection h with hpl
    subst hpl
    have heq : s.TryReserve o size p =
        (some Pool.weighted,
          { s with
            weightedPoolRemaining := s.weightedPoolRemaining - size
            weightedBytesUsed := Function.update s.weightedBytesUsed p
              (s.weightedBytesUsed p + size) }) := by
      unfold ByteAllocator.TryReserve
      rw [if_pos h1]
    rw [heq]
    simp only [ByteAllocator.Release, Function.update_same, Function.update_idem]
    rw [if_pos (Nat.le_add_left size _), Nat.add_sub_cancel,
      Nat.sub_add_cancel h1.2.2, Function.update_eq_self]
  · injection h with hpl
    subst hpl
    have heq : s.TryReserve o size p =
        (some Pool.atLarge,
          { s with
            atLargePoolRemaining := s.atLargePoolRemaining - size
            atLargeBytesUsed := Function.update s.atLargeBytesUsed p
              (s.atLargeBytesUsed p + size) }) := by
      unfold ByteAllocator.TryReserve
      rw [if_neg h1, if_pos h2]
    rw [heq]
    simp only [ByteAllocator.Release, Function.update_same, Function.update_idem]
    rw [if_pos (Nat.le_add_left size _), Nat.add_sub_cancel,
      Nat.sub_add_cancel h2.2, Function.update_eq_self]

/-- Acquiring and then releasing the concurrency gate restores it exactly
when the peer has no queued waiter. -/
theorem tryAcquire_then_release_buffer {n : Nat} (c : ConcurrencyGate n)
    (p : Fin n) (c1 : ConcurrencyGate n)
    (hw : c.waiters p = 0)
    (h : c.tryAcquire p = some c1) :
    c1.Release p = some c := by
  unfold ConcurrencyGate.tryAcquire at h
  split_ifs at h with hlt
  injection h with h1
  subst h1
  unfold ConcurrencyGate.Release
  simp only [Function.update_same, Function.update_idem]
  rw [if_neg (by omega : ¬(c.inFlight p + 1 = 0)), hw,
    if_neg (by omega : ¬(0 < 0)), Nat.add_sub_cancel, Function.update_eq_self]

/-- Concrete controller for the C8 counterexample: one peer, concurrency
cap 5 with nothing in flight, at-large pool of 10 bytes with 5 free, and
one queued byte-gate waiter of size 5. -/
def ctrlC8 : InboundAdmissionController 1 :=
  ⟨⟨5, fun _ => 0, fun _ => 0⟩,
   ⟨⟨0, 0, 10, 5, 10, fun _ => 0, fun _ => 0⟩, [⟨5, 0⟩]⟩⟩

/-- The C8 counterexample controller after Acquire(3, 0) completes. -/
def ctrlC8Mid : InboundAdmissionController 1 :=
  ⟨⟨5, Function.update (fun _ => 0) 0 1, fun _ => 0⟩,
   ⟨⟨0, 0, 10, 2, 10, fun _ => 0, Function.update (fun _ => 0) 0 3⟩,
    [⟨5, 0⟩]⟩⟩

/-- The C8 counterexample controller after the subsequent Release(3, 0):
the release woke the queued waiter, which drained the restored bytes. -/
def ctrlC8Final : InboundAdmissionController 1 :=
  ⟨⟨5, Function.update (Function.update (fun _ => 0) 0 1) 0 0, fun _ => 0⟩,
   ⟨⟨0, 0, 10, 0, 10, fun _ => 0,
     Function.update
       (Function.update (Function.update (fun _ => 0) 0 3) 0 0) 0 5⟩, []⟩⟩

/-- C8 counterexample: from state ctrlC8 (which has a queued byte-gate
waiter of size 5), Acquire(3, 0) completes immediately and the
immediately following Release(3, 0) does NOT restore the pre-Acquire
counters: the release wakes the queued waiter, so the at-large pool ends
at 0 instead of the original 5. -/
theorem acquire_release_not_restoring :
    ctrlC8.tryAcquire oUnweighted 3 0 = some (ctrlC8Mid, Pool.atLarge) ∧
    ctrlC8Mid.Release oUnweighted 3 0 Pool.atLarge = some ctrlC8Final ∧
    ctrlC8Final.byteGate.alloc.atLargePoolRemaining ≠
      ctrlC8.byteGate.alloc.atLargePoolRemaining :=
  ⟨rfl, rfl, by decide⟩

/-- C8 amended: provided the byte gate's FIFO queue is empty and the peer
has no queued concurrency waiter, an Acquire(size, p) that completes
immediately, followed by Release(size, p) of the granted pool with no
interleaved operations, returns the entire controller state — pool
counters, usage maps, in-flight counters and queues — to exactly its
pre-Acquire value. -/
theorem acquire_release_restores_state {n : Nat} (o : WeightOracle n)
    (t t1 : InboundAdmissionController n) (size : Nat) (p : Fin n)
    (pool : Pool)
    (hq : t.byteGate.queue = [])
    (hw : t.bufferGate.waiters p = 0)
    (ha : t.tryAcquire o size p = some (t1, pool)) :
    t1.Release o size p pool = some t := by
  unfold InboundAdmissionController.tryAcquire at ha
  cases hbg : t.bufferGate.tryAcquire p with
  | none => rw [hbg] at ha; exact Option.noConfusion ha
  | some bg =>
    rw [hbg] at ha
    cases hby : t.byteGate.tryAcquire o size p with
    | none => rw [hby] at ha; exact Option.noConfusion ha
    | some pr =>
      rw [hby] at ha
      obtain ⟨byg, pl⟩ := pr
      injection ha with ha1
      injection ha1 with ha2 ha3
      subst ha2
      subst ha3
      unfold ByteGate.tryAcquire at hby
      cases hres : (t.byteGate.alloc.TryReserve o size p).1 with
      | none => rw [hres] at hby; exact Option.noConfusion hby
      | some pl2 =>
        rw [hres] at hby
        injection hby with hb1
        injection hb1 with hb2 hb3
        subst hb3
        subst hb2
        have hbuf : bg.Release p = some t.bufferGate :=
          tryAcquire_then_release_buffer t.bufferGate p bg hw hbg
        have hbyte : ByteGate.Release o
            ⟨(t.byteGate.alloc.TryReserve o size p).2, t.byteGate.queue⟩
            size p pl2 = some (⟨t.byteGate.alloc, []⟩, []) := by
          unfold ByteGate.Release
          dsimp only
          rw [tryReserve_then_release o t.byteGate.alloc size p pl2 hres, hq]
          rfl
        unfold InboundAdmissionController.Release
        dsimp only
        rw [hbuf, hbyte]
        have hgate : (⟨t.byteGate.alloc, []⟩ : ByteGate n) = t.byteGate := by
          rw [← hq]
        rw [hgate]

/-- Concrete quiescent controller for the C8 amended witness: one peer,
no queued waiters anywhere. -/
def ctrlQuiet : InboundAdmissionController 1 :=
  ⟨⟨5, fun _ => 0, fun _ => 0⟩,
   ⟨⟨0, 0, 10, 5, 10, fun _ => 0, fun _ => 0⟩, []⟩⟩

/-- ctrlQuiet after Acquire(3, 0) completes. -/
def ctrlQuietMid : InboundAdmissionController 1 :=
  ⟨⟨5, Function.update (fun _ => 0) 0 1, fun _ => 0⟩,
   ⟨⟨0, 0, 10, 2, 10, fun _ => 0, Function.update (fun _ => 0) 0 3⟩, []⟩⟩

/-- C8 amended witness: on the quiescent controller, Acquire(3, 0)
followed by Release(3, 0) restores the state exactly. -/
theorem acquire_release_restores_state_witness :
    ctrlQuiet.byteGate.queue = [] ∧
    ctrlQuiet.bufferGate.waiters 0 = 0 ∧
    ctrlQuiet.tryAcquire oUnweighted 3 0 = some (ctrlQuietMid, Pool.atLarge) ∧
    ctrlQuietMid.Release oUnweighted 3 0 Pool.atLarge = some ctrlQuiet :=
  ⟨rfl, rfl, rfl,
    acquire_release_restores_state oUnweighted ctrlQuiet ctrlQuietMid 3 0
      Pool.atLarge rfl rfl rfl⟩
